import Mathlib

/-!
Verification of the tls-1030 crawler core against its specification.

Shallow embedding of the Python sources:
* `src/curlcffi.py` — response validation (`validate_response`) and the
  multi-page crawl loop (`crawl_multipage`);
* `src/curlcffi-mobile.py` — the JA3 TLS-1.3→1.2 downgrade (`force_tls12_ja3`);
* `src/collectors/cookie_formatter.py` — the cookie merge (`merge_cookie_lists`);
* `src/modules/tls_config.py` — the JA3 string builder (`build_ja3_string`);
* `src/collectors/tls_extractor.py` — fingerprint extraction (`extract`),
  the fallback profile, the HTTP/2 SETTINGS mapping, and `generate_ja3_hash`.

Python strings are modelled as `List Char`; Python `needle in haystack`
(substring containment) is `containsSub`; dictionaries read with `.get`
become `Option` fields read with `Option.getD`.
-/

set_option maxHeartbeats 1000000

/-- Python `needle == haystack[:len(needle)]`: `needle` is a prefix of `hay`. -/
def isPrefixList : List Char → List Char → Bool
  | [], _ => true
  | _ :: _, [] => false
  | a :: as, b :: bs => a == b && isPrefixList as bs

/-- Python `needle in hay` for strings: substring containment. -/
def containsSub (hay needle : List Char) : Bool :=
  match hay with
  | [] => needle.isEmpty
  | _ :: t => isPrefixList needle hay || containsSub t needle

/-!  `validate_response` from `src/curlcffi.py` lines 229–251.  -/

/-- `validate_response(content, page_num)` from `src/curlcffi.py`:
returns `(has_products, is_blocked)`.  Page 1 is plain HTML; page ≥ 2 is an
RSC response, where only the 50000-byte threshold is consulted. -/
def validate_response (content : List Char) (page_num : Nat) : Bool × Bool :=
  let content_length := content.length
  if page_num = 1 then
    (containsSub content "product-list".data || containsSub content "search-product".data,
     decide (content_length < 5000) || containsSub content "ERR_".data ||
       containsSub content "location.reload".data)
  else
    (containsSub (content.map Char.toLower) "\"product".data ||
       containsSub content "search-product".data || containsSub content "srp_".data,
     decide (content_length < 50000))

/-- The page-specific minimum byte threshold used by `validate_response`. -/
def minByteThreshold (page_num : Nat) : Nat :=
  if page_num = 1 then 5000 else 50000

/-- A page-2 response that contains the block marker `ERR_` but is large. -/
def cexContentPage2 : List Char := "ERR_".data ++ List.replicate 50000 'a'

theorem cexContentPage2_length : cexContentPage2.length = 50004 := by
  rw [cexContentPage2, List.length_append, List.length_replicate]
  decide

/-- Unfolding of `validate_response` at page 1. -/
theorem validate_response_page1 (content : List Char) :
    validate_response content 1 =
      (containsSub content "product-list".data || containsSub content "search-product".data,
       decide (content.length < 5000) || containsSub content "ERR_".data ||
         containsSub content "location.reload".data) := rfl

/-- Unfolding of `validate_response` at page ≥ 2. -/
theorem validate_response_page2 (content : List Char) (page_num : Nat)
    (hp : page_num ≠ 1) :
    validate_response content page_num =
      (containsSub (content.map Char.toLower) "\"product".data ||
         containsSub content "search-product".data || containsSub content "srp_".data,
       decide (content.length < 50000)) := by
  unfold validate_response
  rw [if_neg hp]

/-- The blocking flag at page ≥ 2 is exactly the byte-length test. -/
theorem validate_response_blocked_page2 (content : List Char) (page_num : Nat)
    (hp : page_num ≠ 1) :
    (validate_response content page_num).2 = decide (content.length < 50000) := by
  rw [validate_response_page2 content page_num hp]

/-- C1 counterexample: a page-2 response containing the known block marker
`ERR_` (and of length ≥ 50000) is NOT classified blocked: for pages ≥ 2 the
code consults only the byte-length threshold, never the block markers. -/
theorem C1_counterexample :
    containsSub cexContentPage2 "ERR_".data = true ∧
      (validate_response cexContentPage2 2).2 = false := by
  constructor
  · rw [cexContentPage2]
    rfl
  · rw [validate_response_blocked_page2 cexContentPage2 2 (by decide),
      cexContentPage2_length]
    decide

/-- C1 (amended): every response shorter than the page-specific minimum byte
threshold (5000 bytes for page 1, 50000 bytes for pages ≥ 2) is classified
blocked; and a response containing a known block marker (`ERR_` or
`location.reload`) is classified blocked regardless of length on page 1 only
(pages ≥ 2 consult only the byte-length threshold). -/
theorem C1_validate_response_blocked (content : List Char) (page_num : Nat) :
    (content.length < minByteThreshold page_num →
      (validate_response content page_num).2 = true) ∧
    (page_num = 1 →
      (containsSub content "ERR_".data = true ∨
       containsSub content "location.reload".data = true) →
      (validate_response content page_num).2 = true) := by
  constructor
  · intro h
    by_cases hp : page_num = 1
    · subst hp
      rw [validate_response_page1]
      rw [minByteThreshold, if_pos rfl] at h
      simp [h]
    · rw [validate_response_blocked_page2 content page_num hp]
      rw [minByteThreshold, if_neg hp] at h
      simp [h]
  · intro hp hm
    subst hp
    rw [validate_response_page1]
    rcases hm with h | h <;> simp [h]

/-- Witness for `C1_validate_response_blocked`: a 10-byte page-2 response is
blocked, and a page-1 response containing `ERR_` is blocked. -/
theorem C1_witness :
    (validate_response (List.replicate 10 'a') 2).2 = true ∧
      (validate_response "ERR_".data 1).2 = true := by
  constructor
  · exact (C1_validate_response_blocked (List.replicate 10 'a') 2).1 (by decide)
  · exact (C1_validate_response_blocked "ERR_".data 1).2 rfl (Or.inl (by decide))

/-!  Characterization of `containsSub` via list infixes, used to evaluate
the validator on large synthetic responses without deep kernel reduction.  -/

theorem isPrefixList_iff : ∀ n h : List Char, isPrefixList n h = true ↔ n <+: h
  | [], h => by simp [isPrefixList]
  | a :: as, [] => by simp [isPrefixList]
  | a :: as, b :: bs => by
      rw [isPrefixList, Bool.and_eq_true, List.cons_prefix_cons, beq_iff_eq,
        isPrefixList_iff as bs]

theorem containsSub_iff : ∀ h n : List Char, containsSub h n = true ↔ n <:+: h
  | [], n => by simp [containsSub, List.isEmpty_iff]
  | c :: t, n => by
      rw [containsSub, Bool.or_eq_true, isPrefixList_iff, containsSub_iff t n,
        List.infix_cons_iff]

theorem containsSub_eq_false_of_absent {hay needle : List Char} (c : Char)
    (hc : c ∈ needle) (h : c ∉ hay) : containsSub hay needle = false := by
  rw [← Bool.not_eq_true, containsSub_iff]
  intro hinf
  exact h (hinf.subset hc)

/-!  The multi-page crawl loop from `src/curlcffi.py` lines 327–533.
Network effects are abstracted by a `fetch : Nat → List Char` oracle giving
each page's response body; the loop records one `PageRec` per attempted page
and the list of page numbers actually requested.  -/

/-- One per-page result, as recorded by `crawl_multipage` (`page`, `size`,
`success` fields of the result dict; url/status/time/file are dropped). -/
structure PageRec where
  page : Nat
  size : Nat
  success : Bool
deriving DecidableEq, Repr

/-- The `for page_num in range(1, max_pages + 1)` loop body of
`crawl_multipage`: validate, record a result, continue unless blocked
(a validation failure without a block signal continues; a block stops).
Returns (page results, pages requested). -/
def crawlFrom (fetch : Nat → List Char) : Nat → Nat → List PageRec × List Nat
  | 0, _ => ([], [])
  | k + 1, page =>
      let content := fetch page
      let vr := validate_response content page
      let r : PageRec := ⟨page, content.length, vr.1 && !vr.2⟩
      if vr.2 then ([r], [page])
      else
        let rest := crawlFrom fetch k (page + 1)
        (r :: rest.1, page :: rest.2)

/-- `crawl_multipage(keyword, max_pages)` from `src/curlcffi.py`: runs the
page loop from page 1 and returns
`(page_results, requested pages, len(successful_pages) == max_pages)`. -/
def crawl_multipage (fetch : Nat → List Char) (maxPages : Nat) :
    List PageRec × List Nat × Bool :=
  let out := crawlFrom fetch maxPages 1
  (out.1, out.2, decide ((out.1.filter (·.success)).length = maxPages))

theorem crawlFrom_succ (fetch : Nat → List Char) (k page : Nat) :
    crawlFrom fetch (k + 1) page =
      (let content := fetch page
       let vr := validate_response content page
       let r : PageRec := ⟨page, content.length, vr.1 && !vr.2⟩
       if vr.2 then ([r], [page])
       else
         let rest := crawlFrom fetch k (page + 1)
         (r :: rest.1, page :: rest.2)) := rfl

/-- A synthetic successful page-1 body: has the product-list marker, is over
5000 bytes, and contains no block marker. -/
def goodPage1 : List Char := "product-list".data ++ List.replicate 4990 'a'

theorem goodPage1_length : goodPage1.length = 5002 := by
  rw [goodPage1, List.length_append, List.length_replicate]
  decide

theorem goodPage1_no_err : containsSub goodPage1 "ERR_".data = false := by
  refine containsSub_eq_false_of_absent 'E' (by decide) ?_
  rw [goodPage1]
  intro hmem
  rcases List.mem_append.1 hmem with h | h
  · exact absurd h (by decide)
  · exact absurd (List.eq_of_mem_replicate h) (by decide)

theorem goodPage1_no_reload :
    containsSub goodPage1 "location.reload".data = false := by
  refine containsSub_eq_false_of_absent '.' (by decide) ?_
  rw [goodPage1]
  intro hmem
  rcases List.mem_append.1 hmem with h | h
  · exact absurd h (by decide)
  · exact absurd (List.eq_of_mem_replicate h) (by decide)

theorem goodPage1_has_products :
    containsSub goodPage1 "product-list".data = true := by
  rw [containsSub_iff]
  exact ⟨[], List.replicate 4990 'a', rfl⟩

/-- The end-to-end scenario's response oracle: page 1 succeeds, page 2 is
undersized (1 byte), page 3 would be a block page if ever fetched. -/
def fetchScenario : Nat → List Char
  | 1 => goodPage1
  | 2 => "x".data
  | _ => "ERR_".data

theorem validate_fetchScenario_1 :
    validate_response (fetchScenario 1) 1 = (true, false) := by
  show validate_response goodPage1 1 = (true, false)
  unfold validate_response
  rw [if_pos rfl, goodPage1_has_products, goodPage1_no_err, goodPage1_no_reload,
    goodPage1_length]
  decide

theorem validate_fetchScenario_2 :
    validate_response (fetchScenario 2) 2 = (false, true) := by decide

theorem crawl_scenario_eq :
    crawl_multipage fetchScenario 3 =
      ([⟨1, 5002, true⟩, ⟨2, 1, false⟩], [1, 2], false) := by
  have s2 : crawlFrom fetchScenario 2 2 = ([⟨2, 1, false⟩], [2]) := by
    rw [crawlFrom_succ]
    simp only [validate_fetchScenario_2]
    decide
  have s3 : crawlFrom fetchScenario 3 1 =
      ([⟨1, 5002, true⟩, ⟨2, 1, false⟩], [1, 2]) := by
    rw [crawlFrom_succ]
    simp only [validate_fetchScenario_1]
    simp only [show (2:Nat) = 1 + 1 from rfl] at s2
    simp [s2, goodPage1_length, fetchScenario]
  simp [crawl_multipage, s3]

theorem crawlFrom_requested_ge (fetch : Nat → List Char) :
    ∀ (k page m : Nat), m ∈ (crawlFrom fetch k page).2 → page ≤ m := by
  intro k
  induction k with
  | zero => intro page m hm; simp [crawlFrom] at hm
  | succ k ih =>
      intro page m hm
      rw [crawlFrom_succ] at hm
      by_cases hb : (validate_response (fetch page) page).2 = true
      · simp only [hb, if_true] at hm
        simp at hm
        omega
      · simp only [Bool.not_eq_true] at hb
        simp only [hb, Bool.false_eq_true, if_false] at hm
        rcases List.mem_cons.1 hm with h | h
        · omega
        · have := ih (page + 1) m h
          omega

theorem crawlFrom_blocked (fetch : Nat → List Char) :
    ∀ (k page n : Nat), n ∈ (crawlFrom fetch k page).2 →
      (validate_response (fetch n) n).2 = true →
      (∃ r ∈ (crawlFrom fetch k page).1, r.page = n ∧ r.success = false) ∧
        ∀ m ∈ (crawlFrom fetch k page).2, m ≤ n := by
  intro k
  induction k with
  | zero => intro page n hn; simp [crawlFrom] at hn
  | succ k ih =>
      intro page n hn hblk
      rw [crawlFrom_succ] at hn ⊢
      by_cases hb : (validate_response (fetch page) page).2 = true
      · simp only [hb, if_true] at hn ⊢
        simp at hn
        subst hn
        refine ⟨⟨_, List.mem_singleton_self _, rfl, by simp [hb]⟩, ?_⟩
        intro m hm
        simp at hm
        omega
      · simp only [Bool.not_eq_true] at hb
        simp only [hb, Bool.false_eq_true, if_false] at hn ⊢
        rcases List.mem_cons.1 hn with h | h
        · subst h
          rw [hblk] at hb
          exact absurd hb (by simp)
        · obtain ⟨⟨r, hr, hrpage, hrsucc⟩, hbound⟩ := ih (page + 1) n h hblk
          refine ⟨⟨r, List.mem_cons_of_mem _ hr, hrpage, hrsucc⟩, ?_⟩
          intro m hm
          rcases List.mem_cons.1 hm with h' | h'
          · subst h'
            have := crawlFrom_requested_ge fetch k (m + 1) n h
            omega
          · exact hbound m h'

/-- C2: in every run, a blocked page n yields a failed PageResult for n and
no request for any page greater than n; the 3-page scenario with an
undersized page-2 response produces exactly the two results
(page 1 success, page 2 failed) with requests [1, 2] and overall success
false; and the overall return flag is true iff the number of successful
PageResults equals maxPages. -/
theorem C2_crawl_blocked_stops :
    (∀ (fetch : Nat → List Char) (maxPages n : Nat),
        n ∈ (crawl_multipage fetch maxPages).2.1 →
        (validate_response (fetch n) n).2 = true →
        (∃ r ∈ (crawl_multipage fetch maxPages).1, r.page = n ∧ r.success = false) ∧
          ∀ m ∈ (crawl_multipage fetch maxPages).2.1, m ≤ n) ∧
    crawl_multipage fetchScenario 3 =
      ([⟨1, 5002, true⟩, ⟨2, 1, false⟩], [1, 2], false) ∧
    ∀ (fetch : Nat → List Char) (maxPages : Nat),
      ((crawl_multipage fetch maxPages).2.2 = true ↔
        ((crawl_multipage fetch maxPages).1.filter (·.success)).length = maxPages) := by
  refine ⟨?_, crawl_scenario_eq, ?_⟩
  · intro fetch maxPages n hn hblk
    exact crawlFrom_blocked fetch maxPages 1 n hn hblk
  · intro fetch maxPages
    exact decide_eq_true_iff

/-- Witness for `C2_crawl_blocked_stops`: in the 3-page scenario, page 2 is
blocked, a failed result for page 2 is recorded, and every requested page
is ≤ 2 (page 3 is never requested). -/
theorem C2_witness :
    (∃ r ∈ (crawl_multipage fetchScenario 3).1, r.page = 2 ∧ r.success = false) ∧
      ∀ m ∈ (crawl_multipage fetchScenario 3).2.1, m ≤ 2 :=
  C2_crawl_blocked_stops.1 fetchScenario 3 2
    (by rw [C2_crawl_blocked_stops.2.1]; decide)
    (by decide)

/-!  `force_tls12_ja3` from `src/curlcffi-mobile.py` lines 143–167: splits
the JA3 string on commas; when exactly five fields result, rewrites a `772`
version field to `771` and reassembles; otherwise returns the input. -/

/-- `force_tls12_ja3(ja3_string)` from `src/curlcffi-mobile.py`. -/
def force_tls12_ja3 (s : List Char) : List Char :=
  match s.splitOn ',' with
  | [v, c, e, g, p] =>
      List.intercalate [','] [if v = "772".data then "771".data else v, c, e, g, p]
  | _ => s

/-- C3: on a five-field JA3 string with version field `772`, the downgrade
returns the same fields with the version replaced by `771`; on a five-field
string with any other version field (including `771`), it returns the input
unchanged, so downgraded configs are never promoted back. -/
theorem C3_force_tls12_ja3 (s v c e g p : List Char)
    (h : s.splitOn ',' = [v, c, e, g, p]) :
    (v = "772".data →
      force_tls12_ja3 s = List.intercalate [','] ["771".data, c, e, g, p]) ∧
    (v ≠ "772".data → force_tls12_ja3 s = s) := by
  constructor
  · intro hv
    unfold force_tls12_ja3
    rw [h]
    simp [hv]
  · intro hv
    unfold force_tls12_ja3
    rw [h]
    simp only [if_neg hv]
    have := List.intercalate_splitOn s ','
    rw [h] at this
    exact this

/-- Witness for `C3_force_tls12_ja3`: a concrete TLS 1.3 JA3 string is
downgraded to `771`, and a TLS 1.2 JA3 string passes through unchanged. -/
theorem C3_witness :
    force_tls12_ja3 "772,4865,0-23,29,0".data = "771,4865,0-23,29,0".data ∧
      force_tls12_ja3 "771,4865,0-23,29,0".data = "771,4865,0-23,29,0".data := by
  constructor
  · exact ((C3_force_tls12_ja3 "772,4865,0-23,29,0".data "772".data "4865".data
      "0-23".data "29".data "0".data (by decide)).1 rfl).trans (by decide)
  · exact (C3_force_tls12_ja3 "771,4865,0-23,29,0".data "771".data "4865".data
      "0-23".data "29".data "0".data (by decide)).2 (by decide)

/-!  The cookie merge from `src/collectors/cookie_formatter.py` lines
102–142 (`CookieFormatter.merge_cookie_lists`).  A cookie record is the
standardized dict produced by the formatter adapters.  -/

/-- The standardized cookie record shape produced by `CookieFormatter`. -/
structure Cookie where
  name : String
  value : String
  domain : String
  path : String
  expires : Option Int
  httpOnly : Bool
  secure : Bool
  sameSite : Option String
deriving DecidableEq, Repr

/-- Body of the `for new_cookie in new_cookies` loop of `merge_cookie_lists`:
scan `merged` for the first record with the same name; replace it in place,
else append at the end. -/
def mergeStep (merged : List Cookie) (c : Cookie) : List Cookie :=
  match merged.findIdx? (fun e => e.name == c.name) with
  | some i => merged.set i c
  | none => merged ++ [c]

/-- `merge_cookie_lists(existing_cookies, new_cookies)` (merged list only;
the cookie-name set bookkeeping is modelled separately by
`merge_cookie_lists_run`). -/
def merge_cookie_lists (existing incoming : List Cookie) : List Cookie :=
  incoming.foldl mergeStep existing

/-- Structural-recursion formulation of `mergeStep`, used for proofs. -/
def replaceFirst : List Cookie → Cookie → List Cookie
  | [], c => [c]
  | e :: rest, c => if e.name = c.name then c :: rest else e :: replaceFirst rest c

theorem mergeStep_none {m : List Cookie} {c : Cookie}
    (h : m.findIdx? (fun e => e.name == c.name) = none) :
    mergeStep m c = m ++ [c] := by
  rw [mergeStep, h]

theorem mergeStep_some {m : List Cookie} {c : Cookie} {i : Nat}
    (h : m.findIdx? (fun e => e.name == c.name) = some i) :
    mergeStep m c = m.set i c := by
  rw [mergeStep, h]

theorem mergeStep_eq_replaceFirst : ∀ (m : List Cookie) (c : Cookie),
    mergeStep m c = replaceFirst m c := by
  intro m c
  induction m with
  | nil => rfl
  | cons e rest ih =>
      by_cases h : e.name = c.name
      · have hS : (e :: rest).findIdx? (fun x => x.name == c.name) = some 0 := by
          rw [List.findIdx?_cons, if_pos (by simp [h])]
        rw [mergeStep_some hS, replaceFirst, if_pos h]
        rfl
      · cases hf : rest.findIdx? (fun x => x.name == c.name) with
        | none =>
            have hN : (e :: rest).findIdx? (fun x => x.name == c.name) = none := by
              rw [List.findIdx?_cons, if_neg (by simp [h]), List.findIdx?_succ, hf]
              rfl
            rw [mergeStep_none hN, replaceFirst, if_neg h]
            show e :: (rest ++ [c]) = e :: replaceFirst rest c
            rw [← mergeStep_none hf, ih]
        | some i =>
            have hS : (e :: rest).findIdx? (fun x => x.name == c.name) = some (i + 1) := by
              rw [List.findIdx?_cons, if_neg (by simp [h]), List.findIdx?_succ, hf]
              rfl
            rw [mergeStep_some hS, replaceFirst, if_neg h]
            show e :: (rest.set i c) = e :: replaceFirst rest c
            rw [← mergeStep_some hf, ih]

theorem merge_eq_foldl_replaceFirst (existing incoming : List Cookie) :
    merge_cookie_lists existing incoming = incoming.foldl replaceFirst existing := by
  rw [merge_cookie_lists]
  congr 1
  funext m c
  exact mergeStep_eq_replaceFirst m c

/-- The names of a cookie list, in order. -/
def namesOf (l : List Cookie) : List String := l.map (·.name)

theorem namesOf_nil : namesOf [] = [] := rfl

theorem namesOf_cons (e : Cookie) (l : List Cookie) :
    namesOf (e :: l) = e.name :: namesOf l := rfl

theorem namesOf_append (l l' : List Cookie) :
    namesOf (l ++ l') = namesOf l ++ namesOf l' := by
  simp [namesOf]

theorem replaceFirst_of_not_mem : ∀ {m : List Cookie} {c : Cookie},
    c.name ∉ namesOf m → replaceFirst m c = m ++ [c] := by
  intro m c h
  induction m with
  | nil => rfl
  | cons e rest ih =>
      rw [namesOf_cons] at h
      rw [replaceFirst, if_neg (fun he => h (by rw [he]; exact List.mem_cons_self _ _)),
        ih (fun hm => h (List.mem_cons_of_mem _ hm))]
      rfl

theorem namesOf_replaceFirst_of_mem : ∀ {m : List Cookie} {c : Cookie},
    c.name ∈ namesOf m → namesOf (replaceFirst m c) = namesOf m := by
  intro m c h
  induction m with
  | nil => simp [namesOf] at h
  | cons e rest ih =>
      by_cases he : e.name = c.name
      · rw [replaceFirst, if_pos he, namesOf_cons, namesOf_cons, he]
      · rw [namesOf_cons] at h
        rcases List.mem_cons.1 h with h' | h'
        · exact absurd h'.symm he
        · rw [replaceFirst, if_neg he, namesOf_cons, namesOf_cons, ih h']

theorem namesOf_subset_replaceFirst {m : List Cookie} {c : Cookie} :
    namesOf m ⊆ namesOf (replaceFirst m c) := by
  induction m with
  | nil => simp [namesOf]
  | cons e rest ih =>
      by_cases he : e.name = c.name
      · rw [replaceFirst, if_pos he]
        intro x hx
        rw [namesOf_cons] at hx ⊢
        rcases List.mem_cons.1 hx with h' | h'
        · exact List.mem_cons.2 (Or.inl (by rw [h', he]))
        · exact List.mem_cons.2 (Or.inr h')
      · rw [replaceFirst, if_neg he]
        intro x hx
        rw [namesOf_cons] at hx ⊢
        rcases List.mem_cons.1 hx with h' | h'
        · exact List.mem_cons.2 (Or.inl h')
        · exact List.mem_cons.2 (Or.inr (ih h'))

theorem name_mem_replaceFirst {m : List Cookie} {c : Cookie} :
    c.name ∈ namesOf (replaceFirst m c) := by
  induction m with
  | nil => simp [replaceFirst, namesOf]
  | cons e rest ih =>
      by_cases he : e.name = c.name
      · rw [replaceFirst, if_pos he, namesOf_cons]
        exact List.mem_cons_self _ _
      · rw [replaceFirst, if_neg he, namesOf_cons]
        exact List.mem_cons_of_mem _ ih

theorem find?_replaceFirst_self : ∀ (m : List Cookie) (c : Cookie),
    (replaceFirst m c).find? (fun e => e.name == c.name) = some c := by
  intro m c
  induction m with
  | nil => simp [replaceFirst]
  | cons e rest ih =>
      by_cases he : e.name = c.name
      · rw [replaceFirst, if_pos he]
        rw [List.find?_cons_of_pos _ (by simp)]
      · rw [replaceFirst, if_neg he]
        rw [List.find?_cons_of_neg _ (by simp [he])]
        exact ih

theorem find?_replaceFirst_ne {n : String} : ∀ (m : List Cookie) (c : Cookie),
    n ≠ c.name →
    (replaceFirst m c).find? (fun e => e.name == n) = m.find? (fun e => e.name == n) := by
  intro m c hn
  induction m with
  | nil =>
      rw [replaceFirst]
      rw [List.find?_cons_of_neg _ (by simp; exact fun h => hn h.symm)]
  | cons e rest ih =>
      by_cases he : e.name = c.name
      · rw [replaceFirst, if_pos he]
        rw [List.find?_cons_of_neg _ (by simp; exact fun h => hn h.symm),
          List.find?_cons_of_neg _ (by simp [he]; exact fun h => hn h.symm)]
      · rw [replaceFirst, if_neg he]
        by_cases hp : e.name = n
        · rw [List.find?_cons_of_pos _ (by simp [hp]), List.find?_cons_of_pos _ (by simp [hp])]
        · rw [List.find?_cons_of_neg _ (by simp [hp]), List.find?_cons_of_neg _ (by simp [hp])]
          exact ih

theorem foldl_replaceFirst_find? : ∀ (B A : List Cookie) (n : String),
    (B.foldl replaceFirst A).find? (fun e => e.name == n) =
      ((B.filter (fun e => e.name == n)).getLast?).or
        (A.find? (fun e => e.name == n)) := by
  intro B
  induction B with
  | nil => intro A n; simp
  | cons b B' ih =>
      intro A n
      rw [List.foldl_cons]
      rw [ih (replaceFirst A b) n]
      by_cases hn : b.name = n
      · have hfilter : (b :: B').filter (fun e => e.name == n) =
            b :: B'.filter (fun e => e.name == n) := by
          rw [List.filter_cons, if_pos (by simp [hn])]
        rw [hfilter]
        cases hF : B'.filter (fun e => e.name == n) with
        | nil =>
            subst hn
            rw [find?_replaceFirst_self]
            simp
        | cons x xs =>
            rw [List.getLast?_cons_cons]
            have hne : (x :: xs).getLast?.isSome := by
              rw [List.getLast?_isSome]
              simp
            obtain ⟨y, hy⟩ := Option.isSome_iff_exists.1 hne
            rw [hy]
            simp
      · have hfilter : (b :: B').filter (fun e => e.name == n) =
            B'.filter (fun e => e.name == n) := by
          rw [List.filter_cons, if_neg (by simp [hn])]
        rw [hfilter, find?_replaceFirst_ne A b (fun h => hn h.symm)]

theorem replaceFirst_eq_self : ∀ {m : List Cookie} {c : Cookie},
    m.find? (fun e => e.name == c.name) = some c → replaceFirst m c = m := by
  intro m c h
  induction m with
  | nil => simp at h
  | cons e rest ih =>
      by_cases he : e.name = c.name
      · rw [List.find?_cons_of_pos _ (by simp [he])] at h
        rw [replaceFirst, if_pos he]
        rw [Option.some_inj.1 h]
      · rw [List.find?_cons_of_neg _ (by simp [he])] at h
        rw [replaceFirst, if_neg he, ih h]

theorem replaceFirst_overwrite : ∀ (m : List Cookie) (b c : Cookie),
    b.name = c.name → replaceFirst (replaceFirst m b) c = replaceFirst m c := by
  intro m b c h
  induction m with
  | nil =>
      show replaceFirst [b] c = [c]
      rw [replaceFirst, if_pos h]
  | cons e rest ih =>
      by_cases he : e.name = b.name
      · have h1 : replaceFirst (e :: rest) b = b :: rest := by
          rw [replaceFirst, if_pos he]
        have h2 : replaceFirst (b :: rest) c = c :: rest := by
          rw [replaceFirst, if_pos h]
        have h3 : replaceFirst (e :: rest) c = c :: rest := by
          rw [replaceFirst, if_pos (he.trans h)]
        rw [h1, h2, h3]
      · have hec : ¬e.name = c.name := fun hc => he (hc.trans h.symm)
        have h1 : replaceFirst (e :: rest) b = e :: replaceFirst rest b := by
          rw [replaceFirst, if_neg he]
        have h2 : replaceFirst (e :: replaceFirst rest b) c =
            e :: replaceFirst (replaceFirst rest b) c := by
          rw [replaceFirst, if_neg hec]
        have h3 : replaceFirst (e :: rest) c = e :: replaceFirst rest c := by
          rw [replaceFirst, if_neg hec]
        rw [h1, h2, h3, ih]

theorem replaceFirst_comm : ∀ (m : List Cookie) (b c : Cookie),
    b.name ≠ c.name → b.name ∈ namesOf m →
    replaceFirst (replaceFirst m b) c = replaceFirst (replaceFirst m c) b := by
  intro m b c hne hb
  induction m with
  | nil => simp [namesOf] at hb
  | cons e rest ih =>
      by_cases heb : e.name = b.name
      · have h1 : replaceFirst (e :: rest) b = b :: rest := by
          rw [replaceFirst, if_pos heb]
        have h2 : replaceFirst (b :: rest) c = b :: replaceFirst rest c := by
          rw [replaceFirst, if_neg hne]
        have h3 : replaceFirst (e :: rest) c = e :: replaceFirst rest c := by
          rw [replaceFirst, if_neg (fun h => hne (heb.symm.trans h))]
        have h4 : replaceFirst (e :: replaceFirst rest c) b = b :: replaceFirst rest c := by
          rw [replaceFirst, if_pos heb]
        rw [h1, h2, h3, h4]
      · by_cases hec : e.name = c.name
        · have h1 : replaceFirst (e :: rest) b = e :: replaceFirst rest b := by
            rw [replaceFirst, if_neg heb]
          have h2 : replaceFirst (e :: replaceFirst rest b) c = c :: replaceFirst rest b := by
            rw [replaceFirst, if_pos hec]
          have h3 : replaceFirst (e :: rest) c = c :: rest := by
            rw [replaceFirst, if_pos hec]
          have h4 : replaceFirst (c :: rest) b = c :: replaceFirst rest b := by
            rw [replaceFirst, if_neg (fun h => hne h.symm)]
          rw [h1, h2, h3, h4]
        · have hb' : b.name ∈ namesOf rest := by
            rw [namesOf_cons] at hb
            rcases List.mem_cons.1 hb with h | h
            · exact absurd h.symm heb
            · exact h
          have h1 : replaceFirst (e :: rest) b = e :: replaceFirst rest b := by
            rw [replaceFirst, if_neg heb]
          have h2 : replaceFirst (e :: replaceFirst rest b) c =
              e :: replaceFirst (replaceFirst rest b) c := by
            rw [replaceFirst, if_neg hec]
          have h3 : replaceFirst (e :: rest) c = e :: replaceFirst rest c := by
            rw [replaceFirst, if_neg hec]
          have h4 : replaceFirst (e :: replaceFirst rest c) b =
              e :: replaceFirst (replaceFirst rest c) b := by
            rw [replaceFirst, if_neg heb]
          rw [h1, h2, h3, h4, ih hb']

theorem namesOf_subset_foldl_replaceFirst : ∀ (B m : List Cookie),
    namesOf m ⊆ namesOf (B.foldl replaceFirst m) := by
  intro B
  induction B with
  | nil => intro m; exact fun x hx => hx
  | cons b B' ih =>
      intro m
      rw [List.foldl_cons]
      exact fun x hx => ih (replaceFirst m b) (namesOf_subset_replaceFirst hx)

theorem name_mem_foldl_replaceFirst : ∀ (B m : List Cookie) (x : Cookie),
    x ∈ B → x.name ∈ namesOf (B.foldl replaceFirst m) := by
  intro B
  induction B with
  | nil => intro m x hx; simp at hx
  | cons b B' ih =>
      intro m x hx
      rw [List.foldl_cons]
      rcases List.mem_cons.1 hx with h | h
      · subst h
        exact namesOf_subset_foldl_replaceFirst B' (replaceFirst m x)
          name_mem_replaceFirst
      · exact ih (replaceFirst m b) x h

theorem foldl_replaceFirst_stab : ∀ (B m : List Cookie) (c : Cookie),
    c.name ∈ namesOf B → (∀ x ∈ B, x.name ∈ namesOf m) →
    B.foldl replaceFirst (replaceFirst m c) = B.foldl replaceFirst m := by
  intro B
  induction B with
  | nil => intro m c hc _; simp [namesOf] at hc
  | cons b B' ih =>
      intro m c hc hall
      rw [List.foldl_cons, List.foldl_cons]
      by_cases hcb : c.name = b.name
      · rw [replaceFirst_overwrite m c b hcb]
      · have hc' : c.name ∈ namesOf B' := by
          rw [namesOf_cons] at hc
          rcases List.mem_cons.1 hc with h | h
          · exact absurd h hcb
          · exact h
        have hcm : c.name ∈ namesOf m := by
          rw [namesOf] at hc
          obtain ⟨x, hxB, hxn⟩ := List.mem_map.1 hc
          exact hxn ▸ hall x hxB
        rw [replaceFirst_comm m c b hcb hcm]
        exact ih (replaceFirst m b) c hc'
          (fun x hx => namesOf_subset_replaceFirst (hall x (List.mem_cons_of_mem _ hx)))

theorem filter_name_eq_nil {B : List Cookie} {n : String} (h : n ∉ namesOf B) :
    B.filter (fun e => e.name == n) = [] := by
  rw [List.filter_eq_nil_iff]
  intro e he
  simp only [beq_iff_eq]
  intro hn
  exact h (hn ▸ List.mem_map_of_mem (·.name) he)

theorem foldl_replaceFirst_idem : ∀ (B A : List Cookie),
    B.foldl replaceFirst (B.foldl replaceFirst A) = B.foldl replaceFirst A := by
  intro B
  induction B with
  | nil => intro A; rfl
  | cons b B' ih =>
      intro A
      rw [List.foldl_cons, List.foldl_cons]
      by_cases hb : b.name ∈ namesOf B'
      · rw [foldl_replaceFirst_stab B' (B'.foldl replaceFirst (replaceFirst A b)) b hb
          (fun x hx => name_mem_foldl_replaceFirst B' (replaceFirst A b) x hx)]
        exact ih (replaceFirst A b)
      · have hfind : (B'.foldl replaceFirst (replaceFirst A b)).find?
            (fun e => e.name == b.name) = some b := by
          rw [foldl_replaceFirst_find? B' (replaceFirst A b) b.name,
            filter_name_eq_nil hb, List.getLast?_nil, Option.none_or,
            find?_replaceFirst_self]
        rw [replaceFirst_eq_self hfind]
        exact ih (replaceFirst A b)

theorem find?_name_self_of_nodup : ∀ {X : List Cookie}, (namesOf X).Nodup →
    ∀ {x : Cookie}, x ∈ X → X.find? (fun e => e.name == x.name) = some x := by
  intro X
  induction X with
  | nil => intro _ x hx; simp at hx
  | cons y rest ih =>
      intro hnd x hx
      rw [namesOf_cons, List.nodup_cons] at hnd
      rcases List.mem_cons.1 hx with h | h
      · subst h
        rw [List.find?_cons_of_pos _ (by simp)]
      · have hne : ¬y.name = x.name := by
          intro he
          exact hnd.1 (he ▸ List.mem_map_of_mem (·.name) h)
        rw [List.find?_cons_of_neg _ (by simp [hne])]
        exact ih hnd.2 h

theorem foldl_replaceFirst_const : ∀ {B m : List Cookie},
    (∀ b ∈ B, replaceFirst m b = m) → B.foldl replaceFirst m = m := by
  intro B
  induction B with
  | nil => intro m _; rfl
  | cons b B' ih =>
      intro m h
      rw [List.foldl_cons, h b (List.mem_cons_self _ _)]
      exact ih (fun x hx => h x (List.mem_cons_of_mem _ hx))

/-- Names of incoming cookies not already seen, in first-occurrence order:
exactly the names the merge appends after the existing records. -/
def newNamesAux (seen : List String) : List Cookie → List String
  | [] => []
  | b :: B =>
      if b.name ∈ seen then newNamesAux seen B
      else b.name :: newNamesAux (b.name :: seen) B

theorem newNamesAux_congr : ∀ (B : List Cookie) (seen seen' : List String),
    (∀ x, x ∈ seen ↔ x ∈ seen') → newNamesAux seen B = newNamesAux seen' B := by
  intro B
  induction B with
  | nil => intro _ _ _; rfl
  | cons b B' ih =>
      intro seen seen' h
      rw [newNamesAux, newNamesAux]
      by_cases hb : b.name ∈ seen
      · rw [if_pos hb, if_pos ((h b.name).1 hb)]
        exact ih seen seen' h
      · rw [if_neg hb, if_neg (fun hb' => hb ((h b.name).2 hb'))]
        refine congrArg _ (ih _ _ ?_)
        intro x
        constructor
        · intro hx
          rcases List.mem_cons.1 hx with h' | h'
          · exact h' ▸ List.mem_cons_self _ _
          · exact List.mem_cons_of_mem _ ((h x).1 h')
        · intro hx
          rcases List.mem_cons.1 hx with h' | h'
          · exact h' ▸ List.mem_cons_self _ _
          · exact List.mem_cons_of_mem _ ((h x).2 h')

theorem namesOf_foldl_replaceFirst : ∀ (B A : List Cookie),
    namesOf (B.foldl replaceFirst A) = namesOf A ++ newNamesAux (namesOf A) B := by
  intro B
  induction B with
  | nil => intro A; rw [newNamesAux, List.append_nil]; rfl
  | cons b B' ih =>
      intro A
      rw [List.foldl_cons, newNamesAux]
      by_cases hb : b.name ∈ namesOf A
      · rw [if_pos hb, ih (replaceFirst A b), namesOf_replaceFirst_of_mem hb]
      · rw [if_neg hb, ih (replaceFirst A b), replaceFirst_of_not_mem hb,
          namesOf_append]
        have : namesOf [b] = [b.name] := rfl
        rw [this, List.append_assoc]
        refine congrArg _ ?_
        show [b.name] ++ newNamesAux (namesOf A ++ [b.name]) B' =
          b.name :: newNamesAux (b.name :: namesOf A) B'
        rw [List.singleton_append]
        refine congrArg _ (newNamesAux_congr B' _ _ ?_)
        intro x
        rw [List.mem_append, List.mem_singleton, List.mem_cons]
        exact Or.comm

/-- C4: cookie-merge behaviour.  (1) The first record with any name `n` in
the merged list is the last incoming record with that name when one exists
(incoming wins; within incoming the later entry wins), and the existing
record otherwise; (2) the merged name sequence is the existing name sequence
(replacements happen in place, preserving positions) followed by the names
of genuinely new incoming records, appended at the end in first-occurrence
order. -/
theorem C4_merge_cookie_lists (existing incoming : List Cookie) (n : String) :
    (merge_cookie_lists existing incoming).find? (fun e => e.name == n) =
      ((incoming.filter (fun e => e.name == n)).getLast?).or
        (existing.find? (fun e => e.name == n)) ∧
    namesOf (merge_cookie_lists existing incoming) =
      namesOf existing ++ newNamesAux (namesOf existing) incoming := by
  rw [merge_eq_foldl_replaceFirst]
  exact ⟨foldl_replaceFirst_find? incoming existing n,
    namesOf_foldl_replaceFirst incoming existing⟩

/-- Two distinct cookie records sharing the name `"a"`. -/
def cookieA1 : Cookie := ⟨"a", "1", ".coupang.com", "/", none, false, true, some "None"⟩
def cookieA2 : Cookie := ⟨"a", "2", ".coupang.com", "/", none, false, true, some "None"⟩
def dupX : List Cookie := [cookieA1, cookieA2]

/-- C5 counterexample: `merge(X, X) = X` fails for a sequence with duplicate
names: for `X = [a:=1, a:=2]` the merge replaces the FIRST record named `a`
with each incoming record in turn, yielding `[a:=2, a:=2] ≠ X`. -/
theorem C5_counterexample :
    merge_cookie_lists dupX dupX = [cookieA2, cookieA2] ∧
      merge_cookie_lists dupX dupX ≠ dupX := by
  constructor
  · decide
  · decide

/-- C5 (amended): `merge(X, X) = X` holds for every sequence whose records
have pairwise distinct names, and re-merging is always absorbed:
`merge(merge(A,B), B) = merge(A,B)` for all cookie sequences A, B. -/
theorem C5_merge_idempotent :
    (∀ X : List Cookie, (namesOf X).Nodup → merge_cookie_lists X X = X) ∧
    ∀ A B : List Cookie,
      merge_cookie_lists (merge_cookie_lists A B) B = merge_cookie_lists A B := by
  constructor
  · intro X h
    rw [merge_eq_foldl_replaceFirst]
    exact foldl_replaceFirst_const
      (fun b hb => replaceFirst_eq_self (find?_name_self_of_nodup h hb))
  · intro A B
    rw [merge_eq_foldl_replaceFirst, merge_eq_foldl_replaceFirst]
    exact foldl_replaceFirst_idem B A

/-- Witness for `C5_merge_idempotent` at concrete inputs. -/
theorem C5_witness : merge_cookie_lists [cookieA1] [cookieA1] = [cookieA1] ∧
    merge_cookie_lists (merge_cookie_lists [] dupX) dupX =
      merge_cookie_lists [] dupX :=
  ⟨C5_merge_idempotent.1 [cookieA1] (by decide), C5_merge_idempotent.2 [] dupX⟩

/-!  Frame/effect model of `merge_cookie_lists`: the Python function copies
`existing_cookies`, mutates only the copy (`merged`) and the caller-supplied
`cookie_names` set, and never writes to the existing list.  The state record
carries the three Python objects; the loop body below performs exactly the
writes the source performs.  -/

/-- The mutable objects visible to `merge_cookie_lists`. -/
structure MergeState where
  existing_cookies : List Cookie
  merged : List Cookie
  cookie_names : Finset String

/-- One iteration of the merge loop as a state transformer: writes only the
`merged` list (replace in place or append) and, on append, adds the new name
to `cookie_names`.  The `existing_cookies` field is never written. -/
def mergeBody (s : MergeState) (c : Cookie) : MergeState :=
  match s.merged.findIdx? (fun e => e.name == c.name) with
  | some i => { s with merged := s.merged.set i c }
  | none =>
      { s with
          merged := s.merged ++ [c]
          cookie_names := insert c.name s.cookie_names }

/-- Full run of `merge_cookie_lists(existing, incoming, cookie_names)`:
`cookie_names` defaults to the set of existing names when the caller passes
none, and `merged` starts as `existing_cookies.copy()`. -/
def merge_cookie_lists_run (existing incoming : List Cookie)
    (names? : Option (Finset String)) : MergeState :=
  let names0 := names?.getD (existing.map (·.name)).toFinset
  incoming.foldl mergeBody
    { existing_cookies := existing, merged := existing, cookie_names := names0 }

theorem mergeBody_existing (s : MergeState) (c : Cookie) :
    (mergeBody s c).existing_cookies = s.existing_cookies := by
  cases h : s.merged.findIdx? (fun e => e.name == c.name) with
  | none => rw [mergeBody, h]
  | some i => rw [mergeBody, h]

theorem mergeBody_merged (s : MergeState) (c : Cookie) :
    (mergeBody s c).merged = mergeStep s.merged c := by
  cases h : s.merged.findIdx? (fun e => e.name == c.name) with
  | none => rw [mergeBody, h, mergeStep, h]
  | some i => rw [mergeBody, h, mergeStep, h]

theorem mergeBody_names_found (s : MergeState) (c : Cookie)
    (h : c.name ∈ namesOf s.merged) :
    (mergeBody s c).cookie_names = s.cookie_names := by
  cases hf : s.merged.findIdx? (fun e => e.name == c.name) with
  | none =>
      exfalso
      obtain ⟨x, hx, hxn⟩ := List.mem_map.1 h
      have := List.findIdx?_eq_none_iff.1 hf x hx
      rw [hxn] at this
      simp at this
  | some i => rw [mergeBody, hf]

theorem mergeBody_not_found (s : MergeState) (c : Cookie)
    (h : c.name ∉ namesOf s.merged) :
    (mergeBody s c).cookie_names = insert c.name s.cookie_names ∧
      (mergeBody s c).merged = s.merged ++ [c] := by
  have hf : s.merged.findIdx? (fun e => e.name == c.name) = none := by
    rw [List.findIdx?_eq_none_iff]
    intro x hx
    simp only [beq_eq_false_iff_ne, ne_eq]
    intro hn
    exact h (hn ▸ List.mem_map_of_mem (·.name) hx)
  rw [mergeBody, hf]
  exact ⟨rfl, rfl⟩

theorem run_existing : ∀ (I : List Cookie) (s : MergeState),
    (I.foldl mergeBody s).existing_cookies = s.existing_cookies := by
  intro I
  induction I with
  | nil => intro s; rfl
  | cons c I' ih =>
      intro s
      rw [List.foldl_cons, ih (mergeBody s c), mergeBody_existing]

theorem run_merged : ∀ (I : List Cookie) (s : MergeState),
    (I.foldl mergeBody s).merged = I.foldl mergeStep s.merged := by
  intro I
  induction I with
  | nil => intro s; rfl
  | cons c I' ih =>
      intro s
      rw [List.foldl_cons, ih (mergeBody s c), mergeBody_merged, List.foldl_cons]

theorem run_names_mem : ∀ (I : List Cookie) (s : MergeState) (x : String),
    (x ∈ (I.foldl mergeBody s).cookie_names ↔
      x ∈ s.cookie_names ∨ (x ∈ namesOf I ∧ x ∉ namesOf s.merged)) := by
  intro I
  induction I with
  | nil => intro s x; simp [namesOf]
  | cons c I' ih =>
      intro s x
      rw [List.foldl_cons, ih (mergeBody s c), namesOf_cons, List.mem_cons]
      by_cases hc : c.name ∈ namesOf s.merged
      · rw [mergeBody_names_found s c hc, mergeBody_merged,
          mergeStep_eq_replaceFirst, namesOf_replaceFirst_of_mem hc]
        by_cases hxc : x = c.name
        · subst hxc
          simp [hc]
        · simp [hxc]
      · obtain ⟨hnames, hmerged⟩ := mergeBody_not_found s c hc
        rw [hnames, mergeBody_merged, mergeStep_eq_replaceFirst,
          replaceFirst_of_not_mem hc, namesOf_append]
        by_cases hxc : x = c.name
        · subst hxc
          simp [hc]
        · simp only [Finset.mem_insert, hxc, false_or, List.mem_append,
            show namesOf [c] = [c.name] from rfl, List.mem_singleton, or_false]

/-- C10: the merge returns a new list and leaves the caller's existing list
unchanged; the merged result is the pure merge; and the caller-supplied name
set is mutated exactly by adding the names of the newly appended cookies
(incoming names not present among the existing records). -/
theorem C10_merge_frame_effects (existing incoming : List Cookie) (names? : Option (Finset String)) :
    (merge_cookie_lists_run existing incoming names?).existing_cookies = existing ∧
    (merge_cookie_lists_run existing incoming names?).merged =
      merge_cookie_lists existing incoming ∧
    ∀ x : String,
      (x ∈ (merge_cookie_lists_run existing incoming names?).cookie_names ↔
        x ∈ names?.getD (existing.map (·.name)).toFinset ∨
          (x ∈ namesOf incoming ∧ x ∉ namesOf existing)) := by
  refine ⟨?_, ?_, ?_⟩
  · rw [merge_cookie_lists_run]
    exact run_existing incoming _
  · rw [merge_cookie_lists_run, run_merged]
    rfl
  · intro x
    rw [merge_cookie_lists_run, run_names_mem]

/-!  The JA3 builder from `src/modules/tls_config.py` lines 10–80
(`TlsConfig.build_ja3_string`).  Dict entries read with `.get` are modelled
as `Option` fields.  -/

/-- Python `needle in hay` on `String`. -/
def strContains (hay needle : String) : Bool := containsSub hay.data needle.data

/-- A cipher-suite or extension dict entry as the builder reads it:
`.get('id')` and `.get('name', '')`. -/
structure TlsEntryOpt where
  id : Option Int
  name : Option String
deriving DecidableEq, Repr

/-- The `tls_data` dict fields consumed by `build_ja3_string`. -/
structure TlsDataB where
  ja3_text : Option String
  tls_version : Option String
  cipher_suites : Option (List TlsEntryOpt)
  extensions : Option (List TlsEntryOpt)
  supported_groups : Option (List String)
deriving DecidableEq, Repr

/-- Python truthiness of `cipher.get('id')`: false for a missing id and for
id 0. -/
def truthyId : Option Int → Bool
  | none => false
  | some v => v != 0

/-- The fixed `curve_map` name→ID table; unknown names map to `''` and are
dropped. -/
def curve_map (g : String) : String :=
  if g = "X25519" then "29"
  else if g = "x25519" then "29"
  else if g = "secp256r1" then "23"
  else if g = "prime256v1" then "23"
  else if g = "secp384r1" then "24"
  else if g = "secp521r1" then "25"
  else if g = "X25519Kyber768Draft00" then "25497"
  else ""

/-- The component-wise JA3 synthesis of `build_ja3_string` (the code path
when no stored `ja3_text` is available). -/
def build_ja3_body (d : TlsDataB) : String :=
  let tls_version := d.tls_version.getD "TLS 1.3"
  let ssl_ver := if strContains tls_version "1.3" then "772"
    else if strContains tls_version "1.2" then "771" else "771"
  let ciphers := (d.cipher_suites.getD []).filterMap (fun c =>
    if truthyId c.id && !(strContains (c.name.getD "") "GREASE")
    then some (toString (c.id.getD 0)) else none)
  let cipher_str := String.intercalate "-" ciphers
  let exts := (d.extensions.getD []).filterMap (fun e =>
    if truthyId e.id && !(strContains (e.name.getD "") "GREASE")
    then some (toString (e.id.getD 0)) else none)
  let ext_str := String.intercalate "-" exts
  let groups := (d.supported_groups.getD []).filterMap (fun g =>
    if strContains g "GREASE" then none
    else if curve_map g ≠ "" then some (curve_map g) else none)
  let group_str := String.intercalate "-" groups
  ssl_ver ++ "," ++ cipher_str ++ "," ++ ext_str ++ "," ++ group_str ++ "," ++ "0"

/-- `TlsConfig.build_ja3_string(tls_data)`: returns the stored `ja3_text`
verbatim when truthy, otherwise synthesizes the JA3 string. -/
def build_ja3_string (d : TlsDataB) : String :=
  let ja3_text := d.ja3_text.getD ""
  if ja3_text ≠ "" then ja3_text
  else build_ja3_body d

/-- The JA3 builder exactly as claim C6 words it (for refinement
comparison): the cipher and extension ID lists keep every entry except
GREASE-named ones — no id-truthiness filter. -/
def build_ja3_string_spec (d : TlsDataB) : String :=
  let ja3_text := d.ja3_text.getD ""
  if ja3_text ≠ "" then ja3_text
  else
    let tls_version := d.tls_version.getD "TLS 1.3"
    let ssl_ver := if strContains tls_version "1.3" then "772" else "771"
    let cipher_str := String.intercalate "-"
      (((d.cipher_suites.getD []).filter
        (fun c => !(strContains (c.name.getD "") "GREASE"))).map
        (fun c => toString (c.id.getD 0)))
    let ext_str := String.intercalate "-"
      (((d.extensions.getD []).filter
        (fun e => !(strContains (e.name.getD "") "GREASE"))).map
        (fun e => toString (e.id.getD 0)))
    let group_str := String.intercalate "-"
      ((d.supported_groups.getD []).filterMap
        (fun g => if curve_map g ≠ "" then some (curve_map g) else none))
    ssl_ver ++ "," ++ cipher_str ++ "," ++ ext_str ++ "," ++ group_str ++ "," ++ "0"

/-- A TLS record whose only extension is `server_name` with id 0. -/
def cexTlsDataB : TlsDataB :=
  { ja3_text := none, tls_version := some "TLS 1.3", cipher_suites := some [],
    extensions := some [⟨some 0, some "server_name"⟩], supported_groups := some [] }

/-- C6 counterexample: on a record whose extension list is
`[{id: 0, name: server_name}]` the code produces an empty extension field
(`772,,,,0`) because `if ext_id` is false for id 0, while the claim as
stated predicts `772,,0,,0`. -/
theorem C6_counterexample :
    build_ja3_string cexTlsDataB = "772,,,,0" ∧
      build_ja3_string_spec cexTlsDataB = "772,,0,,0" ∧
      build_ja3_string cexTlsDataB ≠ build_ja3_string_spec cexTlsDataB := by
  refine ⟨by decide, by decide, by decide⟩

/-- The JA3 builder as amended claim C6 words it: besides GREASE-named
entries, entries whose id is missing or zero are also dropped. -/
def build_ja3_string_amended (d : TlsDataB) : String :=
  let ja3_text := d.ja3_text.getD ""
  if ja3_text ≠ "" then ja3_text
  else
    let tls_version := d.tls_version.getD "TLS 1.3"
    let ssl_ver := if strContains tls_version "1.3" then "772" else "771"
    let cipher_str := String.intercalate "-"
      (((d.cipher_suites.getD []).filter
        (fun c => decide (c.id ≠ none ∧ c.id ≠ some 0) &&
          !(strContains (c.name.getD "") "GREASE"))).map
        (fun c => toString (c.id.getD 0)))
    let ext_str := String.intercalate "-"
      (((d.extensions.getD []).filter
        (fun e => decide (e.id ≠ none ∧ e.id ≠ some 0) &&
          !(strContains (e.name.getD "") "GREASE"))).map
        (fun e => toString (e.id.getD 0)))
    let group_str := String.intercalate "-"
      ((d.supported_groups.getD []).filterMap
        (fun g => if curve_map g ≠ "" then some (curve_map g) else none))
    ssl_ver ++ "," ++ cipher_str ++ "," ++ ext_str ++ "," ++ group_str ++ "," ++ "0"

theorem filterMap_if_eq_filter_map {α β : Type} (p : α → Bool) (f : α → β) :
    ∀ l : List α,
      l.filterMap (fun a => if p a then some (f a) else none) = (l.filter p).map f := by
  intro l
  induction l with
  | nil => rfl
  | cons a l' ih =>
      rw [List.filterMap_cons, List.filter_cons]
      by_cases h : p a = true
      · rw [if_pos h, if_pos h, List.map_cons, ih]
      · rw [if_neg (by simp [h]), if_neg h]
        simpa using ih

theorem truthyId_eq (o : Option Int) :
    truthyId o = decide (o ≠ none ∧ o ≠ some 0) := by
  cases o with
  | none => simp [truthyId]
  | some v =>
      simp only [truthyId]
      by_cases hv : v = 0 <;> simp [hv]

theorem curve_map_grease (g : String) (h : strContains g "GREASE" = true) :
    curve_map g = "" := by
  unfold curve_map
  split_ifs with h1 h2 h3 h4 h5 h6 h7
  · subst h1; exact absurd h (by decide)
  · subst h2; exact absurd h (by decide)
  · subst h3; exact absurd h (by decide)
  · subst h4; exact absurd h (by decide)
  · subst h5; exact absurd h (by decide)
  · subst h6; exact absurd h (by decide)
  · subst h7; exact absurd h (by decide)
  · rfl

theorem filterMap_congr_fun {α β : Type} {f g : α → Option β}
    (h : ∀ a, f a = g a) : ∀ l : List α, l.filterMap f = l.filterMap g := by
  intro l
  induction l with
  | nil => rfl
  | cons a l' ih => rw [List.filterMap_cons, List.filterMap_cons, h a, ih]

/-- C6 (amended): `build_ja3_string` returns the stored `ja3_text` verbatim
when present and non-empty; otherwise it builds
`version,cipher_ids,extension_ids,group_ids,0` with version `772` for
TLS 1.3 and `771` otherwise, hyphen-joined decimal IDs in original order
with GREASE-named entries AND entries with a missing or zero id removed,
and groups mapped through the fixed table with unknown names dropped —
stated as equality with the spec-worded `build_ja3_string_amended`. -/
theorem C6_build_ja3_string (d : TlsDataB) :
    build_ja3_string d = build_ja3_string_amended d := by
  rw [build_ja3_string, build_ja3_string_amended]
  by_cases hj : d.ja3_text.getD "" ≠ ""
  · rw [if_pos hj, if_pos hj]
  · rw [if_neg hj, if_neg hj, build_ja3_body]
    have hver : ∀ a b : Bool,
        (if a then "772" else if b then "771" else "771") =
          (if a then "772" else "771") := by
      intro a b
      cases a <;> cases b <;> rfl
    rw [hver]
    have hcip : (d.cipher_suites.getD []).filterMap (fun c =>
        if truthyId c.id && !(strContains (c.name.getD "") "GREASE")
        then some (toString (c.id.getD 0)) else none) =
        ((d.cipher_suites.getD []).filter
          (fun c => decide (c.id ≠ none ∧ c.id ≠ some 0) &&
            !(strContains (c.name.getD "") "GREASE"))).map
          (fun c => toString (c.id.getD 0)) := by
      rw [show (fun c : TlsEntryOpt =>
          if truthyId c.id && !(strContains (c.name.getD "") "GREASE")
          then some (toString (c.id.getD 0)) else none) =
        (fun c : TlsEntryOpt =>
          if (decide (c.id ≠ none ∧ c.id ≠ some 0) &&
              !(strContains (c.name.getD "") "GREASE"))
          then some (toString (c.id.getD 0)) else none) from
        funext (fun c => by rw [truthyId_eq])]
      exact filterMap_if_eq_filter_map _ _ _
    have hext : (d.extensions.getD []).filterMap (fun e =>
        if truthyId e.id && !(strContains (e.name.getD "") "GREASE")
        then some (toString (e.id.getD 0)) else none) =
        ((d.extensions.getD []).filter
          (fun e => decide (e.id ≠ none ∧ e.id ≠ some 0) &&
            !(strContains (e.name.getD "") "GREASE"))).map
          (fun e => toString (e.id.getD 0)) := by
      rw [show (fun e : TlsEntryOpt =>
          if truthyId e.id && !(strContains (e.name.getD "") "GREASE")
          then some (toString (e.id.getD 0)) else none) =
        (fun e : TlsEntryOpt =>
          if (decide (e.id ≠ none ∧ e.id ≠ some 0) &&
              !(strContains (e.name.getD "") "GREASE"))
          then some (toString (e.id.getD 0)) else none) from
        funext (fun e => by rw [truthyId_eq])]
      exact filterMap_if_eq_filter_map _ _ _
    have hgrp : (d.supported_groups.getD []).filterMap (fun g =>
        if strContains g "GREASE" then none
        else if curve_map g ≠ "" then some (curve_map g) else none) =
        (d.supported_groups.getD []).filterMap
          (fun g => if curve_map g ≠ "" then some (curve_map g) else none) := by
      refine filterMap_congr_fun (fun g => ?_) _
      by_cases hg : strContains g "GREASE" = true
      · rw [if_pos hg, if_neg (by simp [curve_map_grease g hg])]
      · rw [if_neg hg]
    rw [hcip, hext, hgrp]

/-- Removal of every GREASE-named cipher/extension entry and every
GREASE-containing group name from a TLS record. -/
def removeGreaseB (d : TlsDataB) : TlsDataB :=
  { d with
      cipher_suites := d.cipher_suites.map
        (fun l => l.filter (fun c => !(strContains (c.name.getD "") "GREASE")))
      extensions := d.extensions.map
        (fun l => l.filter (fun e => !(strContains (e.name.getD "") "GREASE")))
      supported_groups := d.supported_groups.map
        (fun l => l.filter (fun g => !(strContains g "GREASE"))) }

theorem filterMap_filter_not {α β : Type} (g : α → Bool) (f : α → Option β)
    (habs : ∀ a, g a = true → f a = none) :
    ∀ l : List α, (l.filter (fun a => !(g a))).filterMap f = l.filterMap f := by
  intro l
  induction l with
  | nil => rfl
  | cons a l' ih =>
      rw [List.filter_cons]
      by_cases h : g a = true
      · rw [if_neg (by simp [h]), List.filterMap_cons, habs a h, ih]
  
      · rw [if_pos (by simp [h]), List.filterMap_cons, List.filterMap_cons, ih]

/-- The synthesized JA3 string does not depend on GREASE entries. -/
theorem build_ja3_removeGrease (d : TlsDataB) :
    build_ja3_string (removeGreaseB d) = build_ja3_string d := by
  rw [build_ja3_string, build_ja3_string]
  have hj : (removeGreaseB d).ja3_text = d.ja3_text := rfl
  rw [hj]
  by_cases h : d.ja3_text.getD "" ≠ ""
  · rw [if_pos h, if_pos h]
  · rw [if_neg h, if_neg h, build_ja3_body, build_ja3_body]
    have hver : (removeGreaseB d).tls_version = d.tls_version := rfl
    rw [hver]
    have hcs : (removeGreaseB d).cipher_suites.getD [] =
        (d.cipher_suites.getD []).filter
          (fun c => !(strContains (c.name.getD "") "GREASE")) := by
      show ((d.cipher_suites.map _).getD []) = _
      rw [show ([] : List TlsEntryOpt) =
        List.filter (fun c => !(strContains (c.name.getD "") "GREASE")) [] from rfl,
        Option.getD_map]
      rfl
    have hex : (removeGreaseB d).extensions.getD [] =
        (d.extensions.getD []).filter
          (fun e => !(strContains (e.name.getD "") "GREASE")) := by
      show ((d.extensions.map _).getD []) = _
      rw [show ([] : List TlsEntryOpt) =
        List.filter (fun e => !(strContains (e.name.getD "") "GREASE")) [] from rfl,
        Option.getD_map]
      rfl
    have hgr : (removeGreaseB d).supported_groups.getD [] =
        (d.supported_groups.getD []).filter (fun g => !(strContains g "GREASE")) := by
      show ((d.supported_groups.map _).getD []) = _
      rw [show ([] : List String) =
        List.filter (fun g => !(strContains g "GREASE")) [] from rfl,
        Option.getD_map]
      rfl
    rw [hcs, hex, hgr]
    rw [filterMap_filter_not _ _ (fun c hc => by simp [hc])]
    rw [filterMap_filter_not _ _ (fun e he => by simp [he])]
    rw [filterMap_filter_not _ _ (fun g hg => by rw [if_pos hg])]

/-!  `TlsExtractor.generate_ja3_hash` from `src/collectors/tls_extractor.py`
lines 356–376 hashes the string modelled by `generate_ja3_input`; equal
inputs therefore give equal MD5 hashes.  -/

/-- A cipher/extension entry as `generate_ja3_hash` indexes it
(`c['id']` directly, no defaults). -/
structure TlsEntry where
  id : Int
  name : String
deriving DecidableEq, Repr

/-- The `tls_data` fields relevant to `generate_ja3_hash`. -/
structure TlsDataX where
  cipher_suites : List TlsEntry
  extensions : List TlsEntry
  supported_groups : List String
deriving DecidableEq, Repr

/-- The `ja3_string` computed inside `generate_ja3_hash`, of which the
returned hash is the MD5: version hardcoded `771`, ALL cipher and extension
IDs comma-joined with no GREASE filtering, curves hardcoded `29,23,24`
(the record's `supported_groups` is never consulted). -/
def generate_ja3_input (d : TlsDataX) : String :=
  let ssl_version := "771"
  let ciphers := String.intercalate "," (d.cipher_suites.map (fun c => toString c.id))
  let exts := String.intercalate "," (d.extensions.map (fun e => toString e.id))
  let curves := String.intercalate "," ["29", "23", "24"]
  let point_formats := "0"
  ssl_version ++ "," ++ ciphers ++ "," ++ exts ++ "," ++ curves ++ "," ++ point_formats

/-- A record whose only cipher suite is a GREASE entry. -/
def greaseDataX : TlsDataX :=
  { cipher_suites := [⟨2570, "GREASE"⟩], extensions := [], supported_groups := [] }

/-- C7 counterexample: `generate_ja3_hash` applies no GREASE filter — the
GREASE-named cipher id 2570 appears verbatim in the JA3 hash input. -/
theorem C7_counterexample :
    greaseDataX.cipher_suites = [⟨2570, "GREASE"⟩] ∧
      generate_ja3_input greaseDataX = "771,2570,,29,23,24,0" ∧
      containsSub (generate_ja3_input greaseDataX).data "2570".data = true := by
  refine ⟨rfl, by decide, by decide⟩

/-- Two records identical except for their supported-group lists. -/
def groupsDataX1 : TlsDataX :=
  { cipher_suites := [⟨4865, "TLS_AES_128_GCM_SHA256"⟩],
    extensions := [⟨0, "server_name"⟩], supported_groups := ["X25519", "secp256r1"] }

def groupsDataX2 : TlsDataX :=
  { cipher_suites := [⟨4865, "TLS_AES_128_GCM_SHA256"⟩],
    extensions := [⟨0, "server_name"⟩], supported_groups := ["secp384r1"] }

/-- C9 counterexample: two records with different supported-group lists
produce the SAME JA3 hash input (the curves are hardcoded), hence the same
MD5 hash — the derivation is not sensitive to group-list changes. -/
theorem C9_counterexample :
    groupsDataX1.supported_groups ≠ groupsDataX2.supported_groups ∧
      generate_ja3_input groupsDataX1 = generate_ja3_input groupsDataX2 := by
  refine ⟨by decide, rfl⟩

/-- C9 (amended): JA3 hash derivation is deterministic — records with
identical cipher-suite and extension lists yield an identical JA3 hash
input (and hence identical MD5 hash); the supported-group list does not
influence the result. -/
theorem C9_generate_ja3_deterministic (d d' : TlsDataX)
    (hc : d.cipher_suites = d'.cipher_suites)
    (he : d.extensions = d'.extensions) :
    generate_ja3_input d = generate_ja3_input d' := by
  rw [generate_ja3_input, generate_ja3_input, hc, he]

/-- Witness for `C9_generate_ja3_deterministic` at concrete records. -/
theorem C9_witness : generate_ja3_input groupsDataX1 = generate_ja3_input groupsDataX2 ∧
    groupsDataX1.cipher_suites = groupsDataX2.cipher_suites :=
  ⟨C9_generate_ja3_deterministic groupsDataX1 groupsDataX2 rfl rfl, rfl⟩

/-!  `TlsExtractor.extract` from `src/collectors/tls_extractor.py` lines
27–134, its HTTP/2 SETTINGS scan, and `_get_fallback_data` (lines 226–246).
The oracle interaction is a four-way outcome: navigation/evaluate raised,
the page text was empty, `json.loads`/attribute access raised, or a parsed
JSON structure (all sub-fields optional, matching `.get` defaults).  -/

/-- One entry of a SETTINGS frame's `settings` list. -/
structure SettingEntry where
  name : Option String
  value : Option Int
deriving DecidableEq, Repr

/-- One frame of the browserleaks `http2` section. -/
structure Http2Frame where
  name : Option String
  settings : Option (List SettingEntry)
deriving DecidableEq, Repr

/-- Python dict assignment `d[k] = v` on an insertion-ordered dict. -/
def dictSet (d : List (String × Int)) (k : String) (v : Int) : List (String × Int) :=
  match d with
  | [] => [(k, v)]
  | (k', v') :: rest => if k' = k then (k, v) :: rest else (k', v') :: dictSet rest k v

/-- Python `s.startswith(pre)`. -/
def startsWithPy (s pre : String) : Bool := isPrefixList pre.data s.data

/-- Body of the `for setting in frame.get('settings', [])` loop: skip
settings whose name starts with GREASE, store the rest. -/
def applySetting (acc : List (String × Int)) (s : SettingEntry) : List (String × Int) :=
  let setting_name := s.name.getD ""
  let setting_value := s.value.getD 0
  if !(startsWithPy setting_name "GREASE") then dictSet acc setting_name setting_value
  else acc

/-- The `http2_settings` dict built by `extract`: the first frame named
SETTINGS is scanned, then the loop breaks. -/
def http2_settings_of : List Http2Frame → List (String × Int)
  | [] => []
  | f :: rest =>
      if f.name == some "SETTINGS" then (f.settings.getD []).foldl applySetting []
      else http2_settings_of rest

theorem dictSet_keys_subset (d : List (String × Int)) (k : String) (v : Int) :
    ∀ x ∈ (dictSet d k v).map Prod.fst, x = k ∨ x ∈ d.map Prod.fst := by
  induction d with
  | nil => intro x hx; simp [dictSet] at hx; exact Or.inl hx
  | cons p rest ih =>
      intro x hx
      rw [dictSet] at hx
      by_cases h : p.1 = k
      · rw [if_pos h] at hx
        rcases List.mem_cons.1 hx with h' | h'
        · exact Or.inl h'
        · exact Or.inr (List.mem_cons_of_mem _ h')
      · rw [if_neg h] at hx
        rcases List.mem_cons.1 hx with h' | h'
        · exact Or.inr (List.mem_cons.2 (Or.inl h'))
        · rcases ih x h' with h'' | h''
          · exact Or.inl h''
          · exact Or.inr (List.mem_cons_of_mem _ h'')

theorem foldl_applySetting_keys : ∀ (l : List SettingEntry) (acc : List (String × Int))
    (k : String), k ∈ ((l.foldl applySetting acc).map Prod.fst) →
    k ∈ acc.map Prod.fst ∨ startsWithPy k "GREASE" = false := by
  intro l
  induction l with
  | nil => intro acc k hk; exact Or.inl hk
  | cons s l' ih =>
      intro acc k hk
      rw [List.foldl_cons] at hk
      rcases ih (applySetting acc s) k hk with h | h
      · rw [applySetting] at h
        by_cases hg : startsWithPy (s.name.getD "") "GREASE" = true
        · rw [if_neg (by simp [hg])] at h
          exact Or.inl h
        · rw [if_pos (by simp at hg ⊢; exact hg)] at h
          rcases dictSet_keys_subset acc (s.name.getD "") (s.value.getD 0) k h with
            h' | h'
          · subst h'
            exact Or.inr (by simp at hg; exact hg)
          · exact Or.inl h'
      · exact Or.inr h

theorem http2_settings_no_grease : ∀ (frames : List Http2Frame) (k : String),
    k ∈ (http2_settings_of frames).map Prod.fst → startsWithPy k "GREASE" = false := by
  intro frames
  induction frames with
  | nil => intro k hk; simp [http2_settings_of] at hk
  | cons f rest ih =>
      intro k hk
      rw [http2_settings_of] at hk
      by_cases h : f.name == some "SETTINGS"
      · rw [if_pos h] at hk
        rcases foldl_applySetting_keys _ [] k hk with h' | h'
        · simp at h'
        · exact h'
      · rw [if_neg h] at hk
        exact ih k hk

/-- An extension object of the browserleaks `tls` section: `id`, `name`,
and the `data.named_groups` / `data.algorithms` name lists. -/
structure BlExt where
  id : Option Int
  name : Option String
  dataNamedGroups : Option (List (Option String))
  dataAlgorithms : Option (List (Option String))
deriving DecidableEq, Repr

/-- The browserleaks `tls` section as `extract` reads it. -/
structure BlTlsSection where
  connection_version : Option (Option String)
  cipher_suites : Option (List TlsEntryOpt)
  extensions : Option (List BlExt)
deriving DecidableEq, Repr

/-- The top-level browserleaks JSON blob as `extract` reads it. -/
structure BlJson where
  tls : Option BlTlsSection
  http2 : Option (List Http2Frame)
  ja3_hash : Option String
  ja3_text : Option String
  akamai_hash : Option String
  akamai_text : Option String
deriving DecidableEq, Repr

/-- Outcome of driving the fingerprint oracle page. -/
inductive OracleOutcome where
  | navError
  | emptyText
  | parseFailure
  | ok (j : BlJson)
deriving DecidableEq

/-- The `tls_data` dict `extract` returns (`ja3_hash`/`ja3_text` keys are
absent from the fallback dict, hence `Option`). -/
structure TlsDataOut where
  tls_version : String
  cipher_suites : List TlsEntryOpt
  extensions : List BlExt
  supported_groups : List String
  signature_algorithms : List String
  ja3_hash : Option String
  ja3_text : Option String
deriving DecidableEq, Repr

/-- The `http2_data` dict `extract` returns. -/
structure Http2DataOut where
  settings : List (String × Int)
  akamai_fingerprint : String
  akamai_text : Option String
deriving DecidableEq, Repr

structure ExtractResult where
  tls_data : TlsDataOut
  http2_data : Http2DataOut
deriving DecidableEq, Repr

/-- `_get_chrome_cipher_suites`: the hardcoded fallback cipher list. -/
def chrome_cipher_suites : List TlsEntryOpt :=
  [⟨some 4865, some "TLS_AES_128_GCM_SHA256"⟩,
   ⟨some 4866, some "TLS_AES_256_GCM_SHA384"⟩,
   ⟨some 4867, some "TLS_CHACHA20_POLY1305_SHA256"⟩,
   ⟨some 49195, some "TLS_ECDHE_ECDSA_WITH_AES_128_GCM_SHA256"⟩,
   ⟨some 49199, some "TLS_ECDHE_RSA_WITH_AES_128_GCM_SHA256"⟩,
   ⟨some 49196, some "TLS_ECDHE_ECDSA_WITH_AES_256_GCM_SHA384"⟩,
   ⟨some 49200, some "TLS_ECDHE_RSA_WITH_AES_256_GCM_SHA384"⟩,
   ⟨some 52393, some "TLS_ECDHE_ECDSA_WITH_CHACHA20_POLY1305_SHA256"⟩,
   ⟨some 52392, some "TLS_ECDHE_RSA_WITH_CHACHA20_POLY1305_SHA256"⟩,
   ⟨some 49191, some "TLS_ECDHE_ECDSA_WITH_AES_128_CBC_SHA"⟩,
   ⟨some 49171, some "TLS_ECDHE_RSA_WITH_AES_128_CBC_SHA"⟩,
   ⟨some 49192, some "TLS_ECDHE_ECDSA_WITH_AES_256_CBC_SHA"⟩,
   ⟨some 49172, some "TLS_ECDHE_RSA_WITH_AES_256_CBC_SHA"⟩,
   ⟨some 156, some "TLS_RSA_WITH_AES_128_GCM_SHA256"⟩,
   ⟨some 157, some "TLS_RSA_WITH_AES_256_GCM_SHA384"⟩,
   ⟨some 47, some "TLS_RSA_WITH_AES_128_CBC_SHA"⟩,
   ⟨some 53, some "TLS_RSA_WITH_AES_256_CBC_SHA"⟩]

/-- `_get_chrome_extensions`: the hardcoded fallback extension list. -/
def chrome_extensions : List BlExt :=
  [⟨some 0, some "server_name", none, none⟩,
   ⟨some 10, some "supported_groups", none, none⟩,
   ⟨some 11, some "ec_point_formats", none, none⟩,
   ⟨some 13, some "signature_algorithms", none, none⟩,
   ⟨some 16, some "application_layer_protocol_negotiation", none, none⟩,
   ⟨some 18, some "signed_certificate_timestamp", none, none⟩,
   ⟨some 22, some "encrypt_then_mac", none, none⟩,
   ⟨some 23, some "extended_master_secret", none, none⟩,
   ⟨some 27, some "compress_certificate", none, none⟩,
   ⟨some 35, some "session_ticket", none, none⟩,
   ⟨some 43, some "supported_versions", none, none⟩,
   ⟨some 45, some "psk_key_exchange_modes", none, none⟩,
   ⟨some 51, some "key_share", none, none⟩,
   ⟨some 13172, some "next_protocol_negotiation", none, none⟩,
   ⟨some 17513, some "application_settings", none, none⟩,
   ⟨some 65281, some "renegotiation_info", none, none⟩]

/-- `_get_chrome_supported_groups`. -/
def chrome_supported_groups : List String := ["X25519", "secp256r1", "secp384r1"]

/-- `_get_chrome_signature_algorithms`. -/
def chrome_signature_algorithms : List String :=
  ["ecdsa_secp256r1_sha256", "rsa_pss_rsae_sha256", "rsa_pkcs1_sha256",
   "ecdsa_secp384r1_sha384", "rsa_pss_rsae_sha384", "rsa_pkcs1_sha384",
   "rsa_pss_rsae_sha512", "rsa_pkcs1_sha512"]

/-- `_get_http2_settings`: the fallback HTTP/2 SETTINGS. -/
def chrome_http2_settings : List (String × Int) :=
  [("SETTINGS_HEADER_TABLE_SIZE", 65536),
   ("SETTINGS_ENABLE_PUSH", 0),
   ("SETTINGS_MAX_CONCURRENT_STREAMS", 1000),
   ("SETTINGS_INITIAL_WINDOW_SIZE", 6291456),
   ("SETTINGS_MAX_FRAME_SIZE", 16384),
   ("SETTINGS_MAX_HEADER_LIST_SIZE", 262144)]

/-- Python dict indexing `d[k]` (0 for a missing key; all keys used are
present). -/
def dictLookup (d : List (String × Int)) (k : String) : Int :=
  match d with
  | [] => 0
  | (k', v) :: rest => if k' = k then v else dictLookup rest k

/-- `_generate_akamai_fingerprint`: the Akamai string built from the
fallback SETTINGS. -/
def generate_akamai_fingerprint : String :=
  let settings := chrome_http2_settings
  let parts :=
    ["1:" ++ toString (dictLookup settings "SETTINGS_HEADER_TABLE_SIZE"),
     "2:" ++ toString (dictLookup settings "SETTINGS_ENABLE_PUSH"),
     "3:" ++ toString (dictLookup settings "SETTINGS_MAX_CONCURRENT_STREAMS"),
     "4:" ++ toString (dictLookup settings "SETTINGS_INITIAL_WINDOW_SIZE"),
     "5:" ++ toString (dictLookup settings "SETTINGS_MAX_FRAME_SIZE"),
     "6:" ++ toString (dictLookup settings "SETTINGS_MAX_HEADER_LIST_SIZE")]
  String.intercalate ";" parts ++ "|15663105|0|m,a,s,p"

/-- `_get_fallback_data`: the hardcoded Chrome 136 fallback profile. -/
def fallbackData : ExtractResult :=
  { tls_data :=
      { tls_version := "TLS 1.3"
        cipher_suites := chrome_cipher_suites
        extensions := chrome_extensions
        supported_groups := chrome_supported_groups
        signature_algorithms := chrome_signature_algorithms
        ja3_hash := none
        ja3_text := none }
    http2_data :=
      { settings := chrome_http2_settings
        akamai_fingerprint := generate_akamai_fingerprint
        akamai_text := none } }

/-- The `supported_groups` scan of `extract`: first extension named
`supported_groups`, defaulting each group name to `''`. -/
def supported_groups_of (extensions : List BlExt) : List String :=
  match extensions.find? (fun e => e.name == some "supported_groups") with
  | some e => (e.dataNamedGroups.getD []).map (fun g => g.getD "")
  | none => []

/-- The `signature_algorithms` scan of `extract`. -/
def signature_algorithms_of (extensions : List BlExt) : List String :=
  match extensions.find? (fun e => e.name == some "signature_algorithms") with
  | some e => (e.dataAlgorithms.getD []).map (fun a => a.getD "")
  | none => []

def emptyBlTlsSection : BlTlsSection := ⟨none, none, none⟩

/-- `TlsExtractor.extract`: any raised error or empty oracle text yields
the fallback profile; a parsed structure is mined with `.get` defaults. -/
def extract : OracleOutcome → ExtractResult
  | .navError => fallbackData
  | .emptyText => fallbackData
  | .parseFailure => fallbackData
  | .ok j =>
      let tls_section := j.tls.getD emptyBlTlsSection
      let cipher_suites := tls_section.cipher_suites.getD []
      let extensions := tls_section.extensions.getD []
      { tls_data :=
          { tls_version := (tls_section.connection_version.getD none).getD "TLS 1.3"
            cipher_suites := cipher_suites
            extensions := extensions
            supported_groups := supported_groups_of extensions
            signature_algorithms := signature_algorithms_of extensions
            ja3_hash := some (j.ja3_hash.getD "")
            ja3_text := some (j.ja3_text.getD "") }
        http2_data :=
          { settings := http2_settings_of (j.http2.getD [])
            akamai_fingerprint := j.akamai_hash.getD ""
            akamai_text := some (j.akamai_text.getD "") } }

/-- A parseable oracle response missing every sub-field (`{}`). -/
def emptyBlJson : BlJson := ⟨none, none, none, none, none, none⟩

/-- C8 counterexample: a parseable oracle response missing all required
sub-fields does NOT yield the fallback profile — `extract` builds a model
from per-field defaults (empty lists) instead. -/
theorem C8_counterexample :
    extract (.ok emptyBlJson) ≠ fallbackData ∧
      (extract (.ok emptyBlJson)).tls_data.cipher_suites = [] ∧
      fallbackData.tls_data.cipher_suites ≠ [] := by
  refine ⟨?_, rfl, by decide⟩
  intro h
  have := congrArg (fun r => r.tls_data.cipher_suites) h
  simp only [extract, fallbackData] at this
  exact absurd this (by decide)

/-- C8 (amended): `extract` never raises; on a network error, an empty
response, or an unparseable structure it returns the hardcoded fallback
profile; a parseable structure missing required sub-fields yields a model
built from per-field defaults rather than the fallback. -/
theorem C8_extract_error_handling :
    (∀ o : OracleOutcome,
      (o = .navError ∨ o = .emptyText ∨ o = .parseFailure) →
        extract o = fallbackData) ∧
    (extract (.ok emptyBlJson)).tls_data =
      { tls_version := "TLS 1.3", cipher_suites := [], extensions := [],
        supported_groups := [], signature_algorithms := [],
        ja3_hash := some "", ja3_text := some "" } := by
  constructor
  · intro o h
    rcases h with h | h | h <;> (subst h; rfl)
  · rfl

/-- Witness for `C8_extract_error_handling`: the network-error outcome
returns the fallback profile. -/
theorem C8_witness : extract .navError = fallbackData :=
  C8_extract_error_handling.1 .navError (Or.inl rfl)

/-- A SETTINGS frame mixing a regular setting and a GREASE setting. -/
def witFrames : List Http2Frame :=
  [⟨some "SETTINGS",
    some [⟨some "SETTINGS_HEADER_TABLE_SIZE", some 65536⟩,
          ⟨some "GREASE_SETTING", some 1⟩]⟩]

/-- C7 (amended): GREASE-named entries are excluded from the synthesized
JA3 string (`build_ja3_string` is invariant under removing them) and GREASE
names never appear among the derived HTTP/2 SETTINGS keys; the JA3 hash
input of `generate_ja3_hash`, however, performs no GREASE filtering (see
the counterexample). -/
theorem C7_grease_filtering :
    (∀ d : TlsDataB, build_ja3_string (removeGreaseB d) = build_ja3_string d) ∧
    (∀ (frames : List Http2Frame) (k : String),
      k ∈ (http2_settings_of frames).map Prod.fst →
        startsWithPy k "GREASE" = false) :=
  ⟨build_ja3_removeGrease, http2_settings_no_grease⟩

/-- Witness for `C7_grease_filtering` at concrete inputs. -/
theorem C7_witness :
    startsWithPy "SETTINGS_HEADER_TABLE_SIZE" "GREASE" = false ∧
      build_ja3_string (removeGreaseB cexTlsDataB) = build_ja3_string cexTlsDataB :=
  ⟨C7_grease_filtering.2 witFrames "SETTINGS_HEADER_TABLE_SIZE" (by decide),
   C7_grease_filtering.1 cexTlsDataB⟩
